import Mathlib

/-!
Verification of the environment-model layer of a robot path-planning framework
(obstacle taxonomy and lifecycle from `abstractpath.h`) and of the strategy
runtime's `RingBuffer` container (`ringbuffer.ts`).

The repository ships only the header `abstractpath.h` for the path code: the
bodies of the distance functions, the lifecycle methods and the RNG live in a
translation unit that is not part of the sources at hand.  Wherever a body is
missing, the corresponding Lean definition is modelled from the spec and its
doc comment says so.  `isRadiusValid` is inline in the header and is translated
from that source line.  The `RingBuffer` definitions are a direct translation
of the TypeScript source.
-/

/-- Modelled from the spec: the 2D point type (`Vector` in the C++ code; the
file `vector.h` is not among the sources).  A value type holding floating-point
x and y, embedded here as real numbers. -/
structure Vec where
  x : ℝ
  y : ℝ

/-- Modelled from the spec: Euclidean point-to-point distance, the standard
formula of §4.1 of the spec. -/
noncomputable def Vec.dist (a b : Vec) : ℝ :=
  Real.sqrt ((a.x - b.x) ^ 2 + (a.y - b.y) ^ 2)

/-- Modelled from the spec: the directed line segment between two points
(`LineSegment` in the C++ code; `linesegment.h` is not among the sources). -/
structure LineSegment where
  p1 : Vec
  p2 : Vec

/-- Clamp a real number into the interval from lo to hi. -/
noncomputable def clampR (v lo hi : ℝ) : ℝ := max lo (min v hi)

/-- Modelled from the spec: the point of a segment closest to a query point —
project the point onto the segment's supporting line, clamp the parameter to
the segment, and read off the point; a degenerate (zero-length) segment
degrades gracefully to its single endpoint (§4.1). -/
noncomputable def LineSegment.closestPoint (s : LineSegment) (v : Vec) : Vec :=
  let dx := s.p2.x - s.p1.x
  let dy := s.p2.y - s.p1.y
  let len2 := dx ^ 2 + dy ^ 2
  if len2 = 0 then s.p1
  else
    let t := clampR (((v.x - s.p1.x) * dx + (v.y - s.p1.y) * dy) / len2) 0 1
    ⟨s.p1.x + t * dx, s.p1.y + t * dy⟩

/-- Modelled from the spec: point-to-segment distance, the distance from the
query point to the closest point of the segment (§4.1). -/
noncomputable def LineSegment.distanceTo (s : LineSegment) (v : Vec) : ℝ :=
  Vec.dist v (s.closestPoint v)

namespace AbstractPath

/-- Circle obstacle: diagnostic name, priority, center and radius
(`AbstractPath::Circle` of `abstractpath.h`, with the `Obstacle` base-class
fields flattened in). -/
structure Circle where
  name : String
  prio : Int
  center : Vec
  radius : ℝ

/-- Modelled from the spec: `Circle::distance(point)` — the body is in the
missing translation unit; §4.2 defines it as |point − center| − radius. -/
noncomputable def Circle.distance (c : Circle) (v : Vec) : ℝ :=
  Vec.dist v c.center - c.radius

/-- Axis-aligned rectangle obstacle (`AbstractPath::Rect`). -/
structure Rect where
  name : String
  prio : Int
  bottom_left : Vec
  top_right : Vec

/-- The point of the rectangle closest to the query point: each coordinate is
clamped into the rectangle's range. -/
noncomputable def Rect.nearestPoint (r : Rect) (v : Vec) : Vec :=
  ⟨clampR v.x r.bottom_left.x r.top_right.x, clampR v.y r.bottom_left.y r.top_right.y⟩

/-- Modelled from the spec: `Rect::distance(point)` — the body is in the
missing translation unit; §4.2 defines it as 0 for points inside the box and
the Euclidean distance to the nearest edge or corner outside, i.e. the
distance to the closest point of the box. -/
noncomputable def Rect.distance (r : Rect) (v : Vec) : ℝ :=
  Vec.dist v (r.nearestPoint v)

/-- Membership in the (closed) box of a rectangle. -/
def Rect.contains (r : Rect) (q : Vec) : Prop :=
  r.bottom_left.x ≤ q.x ∧ q.x ≤ r.top_right.x ∧
  r.bottom_left.y ≤ q.y ∧ q.y ≤ r.top_right.y

/-- A point lies on the border of a rectangle's box when one of its
coordinates sits on the corresponding side. -/
def Rect.onBorder (r : Rect) (q : Vec) : Prop :=
  q.x = r.bottom_left.x ∨ q.x = r.top_right.x ∨
  q.y = r.bottom_left.y ∨ q.y = r.top_right.y

/-- Thick line-segment obstacle (`AbstractPath::Line`). -/
structure Line where
  name : String
  prio : Int
  segment : LineSegment
  width : ℝ

/-- Modelled from the spec: `Line::distance(point)` — the body is in the
missing translation unit; §4.2 defines it as the point-to-segment distance
minus half the width. -/
noncomputable def Line.distance (l : Line) (v : Vec) : ℝ :=
  l.segment.distanceTo v - l.width / 2

/-- Thick triangle-outline obstacle (`AbstractPath::Triangle`). -/
structure Triangle where
  name : String
  prio : Int
  p1 : Vec
  p2 : Vec
  p3 : Vec
  lineWidth : ℝ

/-- Modelled from the spec: `Triangle::distance(point)` — §4.2 defines it as
the minimum over the three edges of the edge-to-point distance minus half the
line width. -/
noncomputable def Triangle.distance (t : Triangle) (v : Vec) : ℝ :=
  min (min ((LineSegment.mk t.p1 t.p2).distanceTo v)
           ((LineSegment.mk t.p2 t.p3).distanceTo v))
      ((LineSegment.mk t.p1 t.p3).distanceTo v) - t.lineWidth / 2

/-- An element of the polymorphic obstacle view: the C++ code stores
`const Obstacle*` pointers into the four per-shape collections; the shallow
embedding stores the pointed-to obstacle tagged by its shape. -/
inductive Obstacle where
  | circle (c : Circle)
  | rect (r : Rect)
  | triangle (t : Triangle)
  | line (l : Line)

/-- Virtual dispatch of the point-distance query through the obstacle view. -/
noncomputable def Obstacle.distance : Obstacle → Vec → ℝ
  | .circle c, v => c.distance v
  | .rect r, v => r.distance v
  | .triangle t, v => t.distance v
  | .line l, v => l.distance v

end AbstractPath

/-- Modelled from the spec: the deterministic pseudorandom source owned by the
environment model (`class RNG`, not among the sources).  §3 requires only a
seedable internal state with a deterministic transition; a linear congruential
step is used as the concrete model. -/
structure RNG where
  state : Nat

/-- Modelled from the spec: reseeding puts the generator into a state that is
a function of the seed alone. -/
def RNG.seeded (seed : Nat) : RNG := ⟨seed % 2 ^ 32⟩

/-- Modelled from the spec: one deterministic draw — produce a value and the
successor state. -/
def RNG.draw (r : RNG) : Nat × RNG :=
  let s := (1103515245 * r.state + 12345) % 2 ^ 31
  (s, ⟨s⟩)

/-- The environment-model state of `class AbstractPath`: the four per-shape
obstacle collections, the collected polymorphic view, the owned RNG, the
playfield boundary and the robot radius.  `customClearEvents` is modelled from
the spec: it counts invocations of the `clearObstaclesCustom()` notification
hook so that "the hook has been invoked" is expressible in a pure state. -/
structure AbstractPath where
  m_obstacles : List AbstractPath.Obstacle
  m_circleObstacles : List AbstractPath.Circle
  m_rectObstacles : List AbstractPath.Rect
  m_triangleObstacles : List AbstractPath.Triangle
  m_lineObstacles : List AbstractPath.Line
  m_rng : RNG
  m_boundary : AbstractPath.Rect
  m_radius : ℝ
  customClearEvents : Nat

/-- Modelled from the spec: `AbstractPath::seedRandom(seed)` — reseeds the
owned pseudorandom source deterministically (§4.3); the body is in the missing
translation unit. -/
def AbstractPath.seedRandom (s : AbstractPath) (seed : Nat) : AbstractPath :=
  { s with m_rng := RNG.seeded seed }

/-- Modelled from the spec: `AbstractPath::setRadius(r)` — sets the robot
inflation radius, accepting any value (§4.3); the body is in the missing
translation unit. -/
def AbstractPath.setRadius (s : AbstractPath) (r : ℝ) : AbstractPath :=
  { s with m_radius := r }

/-- Translated from `abstractpath.h`:
`bool isRadiusValid() \x7b return m_radius >= 0.f; \x7d`. -/
def AbstractPath.isRadiusValid (s : AbstractPath) : Prop :=
  s.m_radius ≥ 0

/-- Modelled from the spec: `AbstractPath::setBoundary(x1,y1,x2,y2)` —
replaces the playfield boundary rectangle, normalizing the two given corners
to bottom-left and top-right (§4.3); the body is in the missing translation
unit. -/
noncomputable def AbstractPath.setBoundary (s : AbstractPath) (x1 y1 x2 y2 : ℝ) : AbstractPath :=
  { s with m_boundary :=
      { s.m_boundary with
          bottom_left := ⟨min x1 x2, min y1 y2⟩
          top_right := ⟨max x1 x2, max y1 y2⟩ } }

/-- Modelled from the spec: `AbstractPath::clearObstacles()` — empties all
four per-shape collections and triggers the `clearObstaclesCustom()`
notification hook (§4.3); the body is in the missing translation unit. -/
def AbstractPath.clearObstacles (s : AbstractPath) : AbstractPath :=
  { s with
      m_circleObstacles := []
      m_rectObstacles := []
      m_triangleObstacles := []
      m_lineObstacles := []
      customClearEvents := s.customClearEvents + 1 }

/-- Modelled from the spec: `AbstractPath::addCircle` — appends a new circle
obstacle to its collection (§4.3); the body is in the missing translation
unit. -/
def AbstractPath.addCircle (s : AbstractPath) (x y radius : ℝ) (name : String)
    (prio : Int) : AbstractPath :=
  { s with m_circleObstacles := s.m_circleObstacles ++ [⟨name, prio, ⟨x, y⟩, radius⟩] }

/-- Modelled from the spec: `AbstractPath::addLine` — appends a new thick-line
obstacle to its collection (§4.3); the body is in the missing translation
unit. -/
def AbstractPath.addLine (s : AbstractPath) (x1 y1 x2 y2 width : ℝ) (name : String)
    (prio : Int) : AbstractPath :=
  { s with m_lineObstacles :=
      s.m_lineObstacles ++ [⟨name, prio, ⟨⟨x1, y1⟩, ⟨x2, y2⟩⟩, width⟩] }

/-- Modelled from the spec: `AbstractPath::addRect` — appends a new rectangle
obstacle to its collection (§4.3); the body is in the missing translation
unit. -/
def AbstractPath.addRect (s : AbstractPath) (x1 y1 x2 y2 : ℝ) (name : String)
    (prio : Int) : AbstractPath :=
  { s with m_rectObstacles := s.m_rectObstacles ++ [⟨name, prio, ⟨x1, y1⟩, ⟨x2, y2⟩⟩] }

/-- Modelled from the spec: `AbstractPath::addTriangle` — appends a new
triangle-outline obstacle to its collection (§4.3); the body is in the missing
translation unit. -/
def AbstractPath.addTriangle (s : AbstractPath) (x1 y1 x2 y2 x3 y3 lineWidth : ℝ)
    (name : String) (prio : Int) : AbstractPath :=
  { s with m_triangleObstacles :=
      s.m_triangleObstacles ++ [⟨name, prio, ⟨x1, y1⟩, ⟨x2, y2⟩, ⟨x3, y3⟩, lineWidth⟩] }

/-- Modelled from the spec: `AbstractPath::collectObstacles()` — rebuilds the
polymorphic view `m_obstacles` over all four per-shape collections (§4.3); the
body is in the missing translation unit. -/
def AbstractPath.collectObstacles (s : AbstractPath) : AbstractPath :=
  { s with m_obstacles :=
      s.m_circleObstacles.map .circle ++ s.m_rectObstacles.map .rect ++
      s.m_triangleObstacles.map .triangle ++ s.m_lineObstacles.map .line }

/-- Modelled from the spec: `AbstractPath::pointInPlayfield(point, radius)` —
true when the point, inflated by the radius, lies within the boundary
rectangle (§4.3); the body is in the missing translation unit. -/
def AbstractPath.pointInPlayfield (s : AbstractPath) (point : Vec) (radius : ℝ) : Prop :=
  s.m_boundary.bottom_left.x ≤ point.x - radius ∧
  point.x + radius ≤ s.m_boundary.top_right.x ∧
  s.m_boundary.bottom_left.y ≤ point.y - radius ∧
  point.y + radius ≤ s.m_boundary.top_right.y

/-- A point lies within the playfield boundary rectangle (no inflation). -/
def AbstractPath.inBoundary (s : AbstractPath) (q : Vec) : Prop :=
  s.m_boundary.contains q

/-- The obstacle-mutating operations of the environment model that a planner
may interleave between a reseed and its random draws: additions, clears and
collections. -/
inductive ObOp where
  | addCircle (x y radius : ℝ) (name : String) (prio : Int)
  | addLine (x1 y1 x2 y2 width : ℝ) (name : String) (prio : Int)
  | addRect (x1 y1 x2 y2 : ℝ) (name : String) (prio : Int)
  | addTriangle (x1 y1 x2 y2 x3 y3 lineWidth : ℝ) (name : String) (prio : Int)
  | clearObstacles
  | collectObstacles

/-- Apply one obstacle operation to the environment-model state. -/
def ObOp.apply (s : AbstractPath) : ObOp → AbstractPath
  | .addCircle x y radius name prio => s.addCircle x y radius name prio
  | .addLine x1 y1 x2 y2 width name prio => s.addLine x1 y1 x2 y2 width name prio
  | .addRect x1 y1 x2 y2 name prio => s.addRect x1 y1 x2 y2 name prio
  | .addTriangle x1 y1 x2 y2 x3 y3 w name prio => s.addTriangle x1 y1 x2 y2 x3 y3 w name prio
  | .clearObstacles => s.clearObstacles
  | .collectObstacles => s.collectObstacles

/-- Apply a list of obstacle operations in order. -/
def AbstractPath.applyOps (s : AbstractPath) : List ObOp → AbstractPath
  | [] => s
  | op :: ops => (ObOp.apply s op).applyOps ops

/-- Draw n values from the environment model's owned RNG, threading the
generator state through the draws. -/
def AbstractPath.drawValues : Nat → AbstractPath → List Nat
  | 0, _ => []
  | n + 1, s => (RNG.draw s.m_rng).1 :: AbstractPath.drawValues n { s with m_rng := (RNG.draw s.m_rng).2 }

/-- The state of `RingBuffer<T>` from `ringbuffer.ts`.  The JavaScript backing
array of element type `T | undefined` is embedded as a list of options (`none`
is `undefined`); the numeric fields `_size`, `_length`, `_read` and `_write`
are naturals (they only ever hold non-negative integers in the source). -/
structure RingBuffer (T : Type) where
  buffer : List (Option T)
  size : Nat
  length : Nat
  read : Nat
  write : Nat

/-- JavaScript indexed assignment on an array: in range it overwrites; past
the end it extends the array, filling any gap with `undefined`. -/
def jsSet {T : Type} (l : List (Option T)) (i : Nat) (x : T) : List (Option T) :=
  if i < l.length then l.set i (some x)
  else l ++ List.replicate (i - l.length) none ++ [some x]

/-- The `RingBuffer` constructor: rejects a non-positive size and an initial
value list longer than the size; otherwise the backing array is the initial
values padded with `undefined` up to the size, with the read index at 0 and
the write index past the initial values. -/
def RingBuffer.create (T : Type) (size : Int) (values : List T) :
    Except String (RingBuffer T) :=
  if size ≤ 0 then
    Except.error "Trying to create a ringbuffer of non-positive size"
  else if size < (values.length : Int) then
    Except.error "Too many initial values for ringbuffer"
  else
    Except.ok
      ⟨values.map some ++ List.replicate (size.toNat - values.length) none,
        size.toNat, values.length, 0, values.length⟩

/-- `RingBuffer._inc`: addition modulo the size of the buffer. -/
def RingBuffer.inc {T : Type} (rb : RingBuffer T) (x y : Nat) : Nat :=
  (x + y) % rb.size

/-- `RingBuffer.isEmpty`. -/
def RingBuffer.isEmpty {T : Type} (rb : RingBuffer T) : Prop :=
  rb.length = 0

/-- `RingBuffer.isFull`. -/
def RingBuffer.isFull {T : Type} (rb : RingBuffer T) : Prop :=
  rb.length = rb.size

/-- `RingBuffer.clear`: sets the length to zero and resets the backing array
to all-`undefined` of the buffer's size (the source truncates the array to
length 0 and then re-extends it to the size). -/
def RingBuffer.clear {T : Type} (rb : RingBuffer T) : RingBuffer T :=
  { rb with length := 0, buffer := List.replicate rb.size none }

/-- `RingBuffer.removeOrUndefined`: on an empty buffer returns `undefined`
and leaves the state alone; otherwise returns the element at the read index,
advances the read index modulo the size and decrements the length. -/
def RingBuffer.removeOrUndefined {T : Type} (rb : RingBuffer T) :
    Option T × RingBuffer T :=
  if rb.length = 0 then (none, rb)
  else (rb.buffer.getD rb.read none,
    { rb with read := rb.inc rb.read 1, length := rb.length - 1 })

/-- `RingBuffer.remove`: throws on an empty buffer, otherwise behaves as
`removeOrUndefined`. -/
def RingBuffer.remove {T : Type} (rb : RingBuffer T) :
    Except String (Option T × RingBuffer T) :=
  if rb.length = 0 then Except.error "remove called on empty ringbuffer"
  else Except.ok rb.removeOrUndefined

/-- `RingBuffer.putOrReplace`: on a full buffer first removes the oldest
element (returning it), then writes the new element at the write index,
advances the write index modulo the size and increments the length. -/
def RingBuffer.putOrReplace {T : Type} (rb : RingBuffer T) (x : T) :
    Option T × RingBuffer T :=
  let step := if rb.length = rb.size then rb.removeOrUndefined else (none, rb)
  let rb1 := step.2
  (step.1,
    { rb1 with
        buffer := jsSet rb1.buffer rb1.write x
        write := rb1.inc rb1.write 1
        length := rb1.length + 1 })

/-- `RingBuffer.put`: throws on a full buffer, otherwise stores the element
via `putOrReplace` (discarding its return value). -/
def RingBuffer.put {T : Type} (rb : RingBuffer T) (x : T) :
    Except String (RingBuffer T) :=
  if rb.length = rb.size then Except.error "put called on full ringbuffer"
  else Except.ok (rb.putOrReplace x).2

/-- `RingBuffer.peekOrUndefined`: throws on a negative argument; otherwise
returns the element i remove-steps ahead of the read index, or `undefined`
when the buffer holds at most i elements.  No state is modified. -/
def RingBuffer.peekOrUndefined {T : Type} (rb : RingBuffer T) (i : Int) :
    Except String (Option T) :=
  if i < 0 then Except.error "peekOrUndefined called with negative argument"
  else Except.ok
    (if i.toNat < rb.length then rb.buffer.getD (rb.inc rb.read i.toNat) none
     else none)

/-- `RingBuffer.peek`: throws when the buffer holds at most i elements,
otherwise delegates to `peekOrUndefined`.  No state is modified. -/
def RingBuffer.peek {T : Type} (rb : RingBuffer T) (i : Int) :
    Except String (Option T) :=
  if (rb.length : Int) ≤ i then Except.error "peek called out of range"
  else rb.peekOrUndefined i

/-- `RingBuffer.toArray`: the stored window in insertion order — one slice
when it does not wrap, the concatenation of the tail and head slices when it
does.  The source's trailing non-null assertion cast is kept as the option
type here. -/
def RingBuffer.toArray {T : Type} (rb : RingBuffer T) : List (Option T) :=
  if rb.read + rb.length ≤ rb.size then
    (rb.buffer.drop rb.read).take rb.length
  else
    (rb.buffer.drop rb.read).take (rb.size - rb.read) ++
      rb.buffer.take (rb.read + rb.length - rb.size)

/-- Well-formedness of a ring buffer state, as established by the constructor
and preserved by the operations: positive size, length within the size, read
index in range, backing array at least size long, and every slot of the
stored window occupied. -/
def RingBuffer.WF {T : Type} (rb : RingBuffer T) : Prop :=
  0 < rb.size ∧ rb.length ≤ rb.size ∧ rb.read < rb.size ∧
  rb.size ≤ rb.buffer.length ∧
  ∀ j, j < rb.length → (rb.buffer.getD ((rb.read + j) % rb.size) none).isSome = true

/-- Modelled from the spec: the `AbstractPath(uint32_t rng_seed)` constructor —
empty collections, an RNG seeded from the argument, a zero boundary and the
robot radius negative, i.e. explicitly unset (§3, §7). -/
def AbstractPath.init (seed : Nat) : AbstractPath :=
  ⟨[], [], [], [], [], RNG.seeded seed, ⟨"", 0, ⟨0, 0⟩, ⟨0, 0⟩⟩, -1, 0⟩

/-! ## Geometry helper lemmas -/

theorem Vec.dist_self (a : Vec) : Vec.dist a a = 0 := by
  simp [Vec.dist]

theorem Vec.dist_eq_complex_abs (a b : Vec) :
    Vec.dist a b = Complex.abs ⟨a.x - b.x, a.y - b.y⟩ := by
  rw [Vec.dist, Complex.abs_apply, Complex.normSq_mk]
  congr 1
  ring

theorem Vec.abs_sub_x_le_dist (a b : Vec) : |a.x - b.x| ≤ Vec.dist a b := by
  rw [Vec.dist, ← Real.sqrt_sq_eq_abs]
  exact Real.sqrt_le_sqrt (le_add_of_nonneg_right (sq_nonneg _))

theorem Vec.abs_sub_y_le_dist (a b : Vec) : |a.y - b.y| ≤ Vec.dist a b := by
  rw [Vec.dist, ← Real.sqrt_sq_eq_abs]
  exact Real.sqrt_le_sqrt (le_add_of_nonneg_left (sq_nonneg _))

theorem Vec.dist_le_dist_of_abs_le (p a b : Vec) (hx : |p.x - a.x| ≤ |p.x - b.x|)
    (hy : |p.y - a.y| ≤ |p.y - b.y|) : Vec.dist p a ≤ Vec.dist p b := by
  rw [Vec.dist, Vec.dist]
  apply Real.sqrt_le_sqrt
  have hx2 : (p.x - a.x) ^ 2 ≤ (p.x - b.x) ^ 2 := by
    rw [← sq_abs (p.x - a.x), ← sq_abs (p.x - b.x)]
    exact pow_le_pow_left₀ (abs_nonneg _) hx 2
  have hy2 : (p.y - a.y) ^ 2 ≤ (p.y - b.y) ^ 2 := by
    rw [← sq_abs (p.y - a.y), ← sq_abs (p.y - b.y)]
    exact pow_le_pow_left₀ (abs_nonneg _) hy 2
  linarith

theorem clampR_le (lo hi v : ℝ) (h : lo ≤ hi) : clampR v lo hi ≤ hi :=
  max_le h (min_le_right _ _)

theorem le_clampR (lo hi v : ℝ) : lo ≤ clampR v lo hi :=
  le_max_left _ _

theorem clampR_eq_self (lo hi v : ℝ) (h1 : lo ≤ v) (h2 : v ≤ hi) :
    clampR v lo hi = v := by
  rw [clampR, min_eq_left h2, max_eq_right h1]

theorem abs_sub_clampR_le (lo hi v q : ℝ) (hq1 : lo ≤ q) (hq2 : q ≤ hi) :
    |v - clampR v lo hi| ≤ |v - q| := by
  rw [clampR]
  rcases lt_or_le v lo with h1 | h1
  · rw [min_eq_left (h1.le.trans (hq1.trans hq2)), max_eq_left h1.le,
      abs_of_nonpos (by linarith), abs_of_nonpos (by linarith)]
    linarith
  · rcases lt_or_le hi v with h2 | h2
    · rw [min_eq_right h2.le, max_eq_right (hq1.trans hq2),
        abs_of_nonneg (by linarith), abs_of_nonneg (by linarith)]
      linarith
    · rw [min_eq_left h2, max_eq_right h1, sub_self, abs_zero]
      exact abs_nonneg _

/-! ## Theorems about the obstacle distance queries -/

/-- C1: for every circle obstacle with radius r ≥ 0 and every query point p,
`Circle::distance(p)` is the Euclidean norm of p − center minus the radius; in
particular the distance at the center is −r, and a point strictly inside the
disc yields a negative value. -/
theorem circle_distance_spec (c : AbstractPath.Circle) (p : Vec)
    (hr : 0 ≤ c.radius) :
    c.distance p = Complex.abs ⟨p.x - c.center.x, p.y - c.center.y⟩ - c.radius ∧
    c.distance c.center = -c.radius ∧
    (Vec.dist p c.center < c.radius → c.distance p < 0) := by
  refine ⟨by rw [AbstractPath.Circle.distance, Vec.dist_eq_complex_abs], ?_, ?_⟩
  · rw [AbstractPath.Circle.distance, Vec.dist_self]
    ring
  · intro h
    rw [AbstractPath.Circle.distance]
    linarith

/-- Witness for C1: the unit circle at the origin named "ball" — the distance
at the center is −1 and the distance at (3, 0) is 2 (Scenario 1). -/
theorem circle_distance_witness :
    0 ≤ (AbstractPath.Circle.mk "ball" 0 ⟨0, 0⟩ 1).radius ∧
    (AbstractPath.Circle.mk "ball" 0 ⟨0, 0⟩ 1).distance ⟨0, 0⟩ = -1 ∧
    (AbstractPath.Circle.mk "ball" 0 ⟨0, 0⟩ 1).distance ⟨3, 0⟩ = 2 := by
  refine ⟨by norm_num, ?_, ?_⟩
  · exact (circle_distance_spec (AbstractPath.Circle.mk "ball" 0 ⟨0, 0⟩ 1) ⟨3, 0⟩
      (by norm_num)).2.1
  · show Vec.dist ⟨3, 0⟩ ⟨0, 0⟩ - 1 = 2
    rw [Vec.dist]
    norm_num
    rw [show (9 : ℝ) = 3 ^ 2 by norm_num, Real.sqrt_sq (by norm_num : (0 : ℝ) ≤ 3)]
    norm_num

/-- A point that lies on a segment (parameter t between 0 and 1) has
point-to-segment distance zero: the clamped projection recovers the point
itself, also in the degenerate zero-length case. -/
theorem LineSegment.distanceTo_on_segment (s : LineSegment) (t : ℝ)
    (h0 : 0 ≤ t) (h1 : t ≤ 1) :
    s.distanceTo ⟨s.p1.x + t * (s.p2.x - s.p1.x), s.p1.y + t * (s.p2.y - s.p1.y)⟩ = 0 := by
  rw [LineSegment.distanceTo, LineSegment.closestPoint]
  by_cases hlen : (s.p2.x - s.p1.x) ^ 2 + (s.p2.y - s.p1.y) ^ 2 = 0
  · have hdx : s.p2.x - s.p1.x = 0 := by
      nlinarith [sq_nonneg (s.p2.x - s.p1.x), sq_nonneg (s.p2.y - s.p1.y)]
    have hdy : s.p2.y - s.p1.y = 0 := by
      nlinarith [sq_nonneg (s.p2.x - s.p1.x), sq_nonneg (s.p2.y - s.p1.y)]
    simp only [hlen, if_pos rfl, hdx, hdy]
    simp [Vec.dist]
  · simp only [hlen, if_neg hlen, if_false]
    have harg : ((s.p1.x + t * (s.p2.x - s.p1.x) - s.p1.x) * (s.p2.x - s.p1.x) +
        (s.p1.y + t * (s.p2.y - s.p1.y) - s.p1.y) * (s.p2.y - s.p1.y)) /
        ((s.p2.x - s.p1.x) ^ 2 + (s.p2.y - s.p1.y) ^ 2) = t := by
      field_simp
      ring
    rw [harg, clampR_eq_self 0 1 t h0 h1]
    exact Vec.dist_self _

/-- C3: for every thick line obstacle and every query point p,
`Line::distance(p)` is the point-to-segment distance minus half the width; in
particular, for p on the segment the result is −width/2, and the result is
negative exactly when p is within width/2 of the segment. -/
theorem line_distance_spec (l : AbstractPath.Line) (p : Vec) :
    l.distance p = l.segment.distanceTo p - l.width / 2 ∧
    (∀ t : ℝ, 0 ≤ t → t ≤ 1 →
      p = ⟨l.segment.p1.x + t * (l.segment.p2.x - l.segment.p1.x),
           l.segment.p1.y + t * (l.segment.p2.y - l.segment.p1.y)⟩ →
      l.distance p = -(l.width / 2)) ∧
    (l.distance p < 0 ↔ l.segment.distanceTo p < l.width / 2) := by
  refine ⟨rfl, ?_, ?_⟩
  · intro t h0 h1 hp
    rw [AbstractPath.Line.distance, hp, LineSegment.distanceTo_on_segment l.segment t h0 h1]
    ring
  · rw [AbstractPath.Line.distance]
    constructor
    · intro h
      linarith
    · intro h
      linarith

/-- Witness for C3: the thick line from (0, 0) to (10, 0) with width 1 — a
point on the segment yields −1/2, and the point (5, 0.3) inside the inflated
band yields −0.2 (Scenario 4). -/
theorem line_distance_witness :
    (AbstractPath.Line.mk "wall" 0 ⟨⟨0, 0⟩, ⟨10, 0⟩⟩ 1).distance ⟨5, 0⟩ = -(1 / 2) ∧
    (AbstractPath.Line.mk "wall" 0 ⟨⟨0, 0⟩, ⟨10, 0⟩⟩ 1).distance ⟨5, 3 / 10⟩ = -(2 / 10) := by
  constructor
  · exact (line_distance_spec (AbstractPath.Line.mk "wall" 0 ⟨⟨0, 0⟩, ⟨10, 0⟩⟩ 1)
      ⟨5, 0⟩).2.1 (1 / 2) (by norm_num) (by norm_num)
      (by norm_num [Vec.mk.injEq])
  · show LineSegment.distanceTo ⟨⟨0, 0⟩, ⟨10, 0⟩⟩ ⟨5, 3 / 10⟩ - 1 / 2 = -(2 / 10)
    rw [LineSegment.distanceTo, LineSegment.closestPoint]
    norm_num
    rw [clampR_eq_self 0 1 (1 / 2) (by norm_num) (by norm_num), Vec.dist]
    norm_num
    rw [show (9 : ℝ) = 3 ^ 2 by norm_num, show (100 : ℝ) = 10 ^ 2 by norm_num,
      Real.sqrt_sq (by norm_num : (0 : ℝ) ≤ 3),
      Real.sqrt_sq (by norm_num : (0 : ℝ) ≤ 10)]
    norm_num

/-- C4: for every float r, after `setRadius(r)` the predicate
`isRadiusValid()` holds if and only if r is non-negative — any value is
accepted by `setRadius`, and exactly the negative values mark the radius
invalid. -/
theorem setRadius_isRadiusValid_iff (s : AbstractPath) (r : ℝ) :
    (s.setRadius r).isRadiusValid ↔ 0 ≤ r := by
  simp [AbstractPath.setRadius, AbstractPath.isRadiusValid]

/-- C5: after `clearObstacles()` all four per-shape obstacle collections are
empty, the `clearObstaclesCustom()` notification hook has been invoked once
more, and a subsequent `collectObstacles()` produces an empty view. -/
theorem clearObstacles_spec (s : AbstractPath) :
    s.clearObstacles.m_circleObstacles = [] ∧
    s.clearObstacles.m_rectObstacles = [] ∧
    s.clearObstacles.m_triangleObstacles = [] ∧
    s.clearObstacles.m_lineObstacles = [] ∧
    s.clearObstacles.customClearEvents = s.customClearEvents + 1 ∧
    s.clearObstacles.collectObstacles.m_obstacles = [] := by
  refine ⟨rfl, rfl, rfl, rfl, rfl, ?_⟩
  simp [AbstractPath.clearObstacles, AbstractPath.collectObstacles]

/-- C6: `collectObstacles()` is idempotent — collecting twice with no add or
clear in between leaves the obstacle view `m_obstacles` identical to the view
after the first collection (in fact the whole state is identical). -/
theorem collectObstacles_idempotent (s : AbstractPath) :
    s.collectObstacles.collectObstacles.m_obstacles = s.collectObstacles.m_obstacles ∧
    s.collectObstacles.collectObstacles = s.collectObstacles :=
  ⟨rfl, rfl⟩

/-- Obstacle additions, clears and collections do not touch the owned RNG. -/
theorem ObOp.apply_m_rng (s : AbstractPath) (op : ObOp) :
    (ObOp.apply s op).m_rng = s.m_rng := by
  cases op <;> rfl

/-- A whole sequence of obstacle operations leaves the owned RNG unchanged. -/
theorem AbstractPath.applyOps_m_rng (ops : List ObOp) (s : AbstractPath) :
    (s.applyOps ops).m_rng = s.m_rng := by
  induction ops generalizing s with
  | nil => rfl
  | cons op ops ih => rw [AbstractPath.applyOps, ih, ObOp.apply_m_rng]

/-- The values drawn from the owned RNG depend only on the RNG state. -/
theorem AbstractPath.drawValues_rng_congr (n : Nat) (s1 s2 : AbstractPath)
    (h : s1.m_rng = s2.m_rng) :
    AbstractPath.drawValues n s1 = AbstractPath.drawValues n s2 := by
  induction n generalizing s1 s2 with
  | zero => rfl
  | succ n ih =>
      rw [AbstractPath.drawValues, AbstractPath.drawValues, h]
      exact congrArg _ (ih _ _ rfl)

/-- C7: `seedRandom(s)` followed by N draws produces the same sequence on any
two runs for the same seed, regardless of which obstacle additions, clears or
collections are performed between the reseed and the draws, and whatever the
prior state was. -/
theorem seedRandom_draws_deterministic (s1 s2 : AbstractPath) (seed : Nat)
    (ops1 ops2 : List ObOp) (n : Nat) :
    AbstractPath.drawValues n ((s1.seedRandom seed).applyOps ops1) =
      AbstractPath.drawValues n ((s2.seedRandom seed).applyOps ops2) := by
  apply AbstractPath.drawValues_rng_congr
  rw [AbstractPath.applyOps_m_rng, AbstractPath.applyOps_m_rng]
  rfl

/-- C2: for every axis-aligned rectangle obstacle and every query point p,
`Rect::distance(p)` is 0 when p is inside the box; in general it is the
Euclidean distance from p to the clamped point, which lies in the box, is the
closest point of the box to p, and sits on an edge or corner whenever p is
outside — i.e. the distance to the nearest edge or corner of the box. -/
theorem rect_distance_spec (r : AbstractPath.Rect) (p : Vec)
    (hx : r.bottom_left.x ≤ r.top_right.x) (hy : r.bottom_left.y ≤ r.top_right.y) :
    (r.contains p → r.distance p = 0) ∧
    r.distance p = Vec.dist p (r.nearestPoint p) ∧
    r.contains (r.nearestPoint p) ∧
    (∀ q, r.contains q → r.distance p ≤ Vec.dist p q) ∧
    (¬ r.contains p → r.onBorder (r.nearestPoint p)) := by
  refine ⟨?_, rfl, ?_, ?_, ?_⟩
  · intro hc
    rw [AbstractPath.Rect.distance, AbstractPath.Rect.nearestPoint,
      clampR_eq_self _ _ _ hc.1 hc.2.1, clampR_eq_self _ _ _ hc.2.2.1 hc.2.2.2]
    exact Vec.dist_self p
  · exact ⟨le_clampR _ _ _, clampR_le _ _ _ hx, le_clampR _ _ _, clampR_le _ _ _ hy⟩
  · intro q hq
    rw [AbstractPath.Rect.distance]
    exact Vec.dist_le_dist_of_abs_le p (r.nearestPoint p) q
      (abs_sub_clampR_le _ _ _ _ hq.1 hq.2.1)
      (abs_sub_clampR_le _ _ _ _ hq.2.2.1 hq.2.2.2)
  · intro hnc
    simp only [AbstractPath.Rect.onBorder, AbstractPath.Rect.nearestPoint, clampR]
    rcases lt_or_le p.x r.bottom_left.x with h1 | h1
    · left
      rw [min_eq_left (h1.le.trans hx), max_eq_left h1.le]
    · rcases lt_or_le r.top_right.x p.x with h2 | h2
      · right; left
        rw [min_eq_right h2.le, max_eq_right hx]
      · rcases lt_or_le p.y r.bottom_left.y with h3 | h3
        · right; right; left
          rw [min_eq_left (h3.le.trans hy), max_eq_left h3.le]
        · rcases lt_or_le r.top_right.y p.y with h4 | h4
          · right; right; right
            rw [min_eq_right h4.le, max_eq_right hy]
          · exact absurd ⟨h1, h2, h3, h4⟩ hnc

/-- Witness for C2: the box with corners (0, 0) and (2, 2) — the interior
point (1, 1) has distance 0 and the outside point (3, 1) has distance 1 to the
nearest edge (Scenario 2). -/
theorem rect_distance_witness :
    (AbstractPath.Rect.mk "zone" 0 ⟨0, 0⟩ ⟨2, 2⟩).bottom_left.x ≤
      (AbstractPath.Rect.mk "zone" 0 ⟨0, 0⟩ ⟨2, 2⟩).top_right.x ∧
    (AbstractPath.Rect.mk "zone" 0 ⟨0, 0⟩ ⟨2, 2⟩).distance ⟨1, 1⟩ = 0 ∧
    (AbstractPath.Rect.mk "zone" 0 ⟨0, 0⟩ ⟨2, 2⟩).distance ⟨3, 1⟩ = 1 := by
  refine ⟨by norm_num, ?_, ?_⟩
  · exact (rect_distance_spec (AbstractPath.Rect.mk "zone" 0 ⟨0, 0⟩ ⟨2, 2⟩) ⟨1, 1⟩
      (by norm_num) (by norm_num)).1 (by norm_num [AbstractPath.Rect.contains])
  · show Vec.dist ⟨3, 1⟩ (AbstractPath.Rect.nearestPoint _ _) = 1
    rw [AbstractPath.Rect.nearestPoint]
    norm_num
    rw [clampR, clampR]
    norm_num
    rw [Vec.dist]
    norm_num

/-- The inflated-containment check of `pointInPlayfield` is equivalent to the
closed disc of the given radius around the point lying inside the boundary
box. -/
theorem pointInPlayfield_iff_disc_in_boundary (s : AbstractPath) (p : Vec)
    (d : ℝ) (hd : 0 ≤ d) :
    s.pointInPlayfield p d ↔ ∀ q : Vec, Vec.dist q p ≤ d → s.inBoundary q := by
  constructor
  · rintro ⟨h1, h2, h3, h4⟩ q hq
    have hx := (Vec.abs_sub_x_le_dist q p).trans hq
    have hy := (Vec.abs_sub_y_le_dist q p).trans hq
    rw [abs_le] at hx hy
    exact ⟨by linarith [hx.1], by linarith [hx.2], by linarith [hy.1], by linarith [hy.2]⟩
  · intro h
    have e1 : Vec.dist ⟨p.x - d, p.y⟩ p = d := by
      rw [Vec.dist, show (p.x - d - p.x) ^ 2 + (p.y - p.y) ^ 2 = d ^ 2 by ring,
        Real.sqrt_sq hd]
    have e2 : Vec.dist ⟨p.x + d, p.y⟩ p = d := by
      rw [Vec.dist, show (p.x + d - p.x) ^ 2 + (p.y - p.y) ^ 2 = d ^ 2 by ring,
        Real.sqrt_sq hd]
    have e3 : Vec.dist ⟨p.x, p.y - d⟩ p = d := by
      rw [Vec.dist, show (p.x - p.x) ^ 2 + (p.y - d - p.y) ^ 2 = d ^ 2 by ring,
        Real.sqrt_sq hd]
    have e4 : Vec.dist ⟨p.x, p.y + d⟩ p = d := by
      rw [Vec.dist, show (p.x - p.x) ^ 2 + (p.y + d - p.y) ^ 2 = d ^ 2 by ring,
        Real.sqrt_sq hd]
    obtain ⟨a1, -, -, -⟩ := h ⟨p.x - d, p.y⟩ e1.le
    obtain ⟨-, a2, -, -⟩ := h ⟨p.x + d, p.y⟩ e2.le
    obtain ⟨-, -, a3, -⟩ := h ⟨p.x, p.y - d⟩ e3.le
    obtain ⟨-, -, -, a4⟩ := h ⟨p.x, p.y + d⟩ e4.le
    dsimp only at a1 a2 a3 a4
    exact ⟨by linarith, by linarith, by linarith, by linarith⟩

/-- C8: after `setBoundary`, `pointInPlayfield(p, d)` holds for a non-negative
inflation radius d exactly when every point within distance d of p lies inside
the boundary rectangle — the point inflated by d fits in the playfield. -/
theorem setBoundary_pointInPlayfield_spec (s : AbstractPath) (x1 y1 x2 y2 : ℝ)
    (p : Vec) (d : ℝ) (hd : 0 ≤ d) :
    (s.setBoundary x1 y1 x2 y2).pointInPlayfield p d ↔
      ∀ q : Vec, Vec.dist q p ≤ d → (s.setBoundary x1 y1 x2 y2).inBoundary q :=
  pointInPlayfield_iff_disc_in_boundary (s.setBoundary x1 y1 x2 y2) p d hd

/-- Witness for C8: boundary (0, 0)-(10, 10) — the equivalence at the point
(0.1, 5), and (0.1, 5) is in the playfield with inflation 0 but not with
inflation 0.2 (Scenario 3). -/
theorem setBoundary_pointInPlayfield_witness :
    (0 : ℝ) ≤ 0 ∧
    (((AbstractPath.init 0).setBoundary 0 0 10 10).pointInPlayfield ⟨1 / 10, 5⟩ 0 ↔
      ∀ q : Vec, Vec.dist q ⟨1 / 10, 5⟩ ≤ 0 →
        ((AbstractPath.init 0).setBoundary 0 0 10 10).inBoundary q) ∧
    ((AbstractPath.init 0).setBoundary 0 0 10 10).pointInPlayfield ⟨1 / 10, 5⟩ 0 ∧
    ¬ ((AbstractPath.init 0).setBoundary 0 0 10 10).pointInPlayfield ⟨1 / 10, 5⟩ (2 / 10) := by
  refine ⟨le_refl 0,
    setBoundary_pointInPlayfield_spec (AbstractPath.init 0) 0 0 10 10 ⟨1 / 10, 5⟩ 0 le_rfl,
    ?_, ?_⟩
  · rw [AbstractPath.pointInPlayfield, AbstractPath.setBoundary]
    norm_num
  · rw [AbstractPath.pointInPlayfield, AbstractPath.setBoundary]
    norm_num

/-! ## RingBuffer helper lemmas -/

theorem headD_drop_getD {α : Type} (l : List α) (i : Nat) (d : α) (h : i < l.length) :
    (l.drop i).headD d = l.getD i d := by
  induction l generalizing i with
  | nil => simp at h
  | cons a tl ih =>
      cases i with
      | zero => rfl
      | succ n => exact ih n (by simpa using h)

theorem headD_take {α : Type} (l : List α) (n : Nat) (d : α) (hn : 0 < n) :
    (l.take n).headD d = l.headD d := by
  cases n with
  | zero => simp at hn
  | succ m =>
      cases l with
      | nil => rfl
      | cons a tl => rfl

theorem headD_append {α : Type} (l1 l2 : List α) (d : α) (h : l1 ≠ []) :
    (l1 ++ l2).headD d = l1.headD d := by
  cases l1 with
  | nil => exact absurd rfl h
  | cons a tl => rfl

/-- The first element of `toArray` is the element at the read index — the
oldest stored value. -/
theorem RingBuffer.toArray_headD {T : Type} (rb : RingBuffer T) (h0 : 0 < rb.length)
    (hr : rb.read < rb.size) (hb : rb.size ≤ rb.buffer.length) :
    rb.toArray.headD none = rb.buffer.getD rb.read none := by
  have hrb : rb.read < rb.buffer.length := lt_of_lt_of_le hr hb
  rw [RingBuffer.toArray]
  by_cases hc : rb.read + rb.length ≤ rb.size
  · rw [if_pos hc, headD_take _ _ _ h0, headD_drop_getD _ _ _ hrb]
  · rw [if_neg hc]
    have hne : (rb.buffer.drop rb.read).take (rb.size - rb.read) ≠ [] := by
      apply List.ne_nil_of_length_pos
      rw [List.length_take, List.length_drop]
      omega
    rw [headD_append _ _ _ hne, headD_take _ _ _ (by omega), headD_drop_getD _ _ _ hrb]

/-! ## Theorems about the RingBuffer -/


/-- Computation of `removeOrUndefined` on a non-empty buffer. -/
theorem RingBuffer.removeOrUndefined_pos {T : Type} (rb : RingBuffer T)
    (hne : rb.length ≠ 0) :
    rb.removeOrUndefined = (rb.buffer.getD rb.read none,
      ⟨rb.buffer, rb.size, rb.length - 1, rb.inc rb.read 1, rb.write⟩) := by
  rw [RingBuffer.removeOrUndefined, if_neg hne]

/-- Computation of `putOrReplace` on a full (hence non-empty) buffer. -/
theorem RingBuffer.putOrReplace_full {T : Type} (rb : RingBuffer T) (x : T)
    (hfull : rb.length = rb.size) (hne : rb.length ≠ 0) :
    rb.putOrReplace x = (rb.buffer.getD rb.read none,
      ⟨jsSet rb.buffer rb.write x, rb.size, rb.length - 1 + 1,
        rb.inc rb.read 1, rb.inc rb.write 1⟩) := by
  rw [RingBuffer.putOrReplace, if_pos hfull, RingBuffer.removeOrUndefined_pos rb hne]
  rfl

/-- Computation of `putOrReplace` on a buffer that is not full. -/
theorem RingBuffer.putOrReplace_notFull {T : Type} (rb : RingBuffer T) (x : T)
    (h : ¬ rb.length = rb.size) :
    rb.putOrReplace x = (none,
      ⟨jsSet rb.buffer rb.write x, rb.size, rb.length + 1, rb.read,
        rb.inc rb.write 1⟩) := by
  rw [RingBuffer.putOrReplace, if_neg h]

/-- C9: the public RingBuffer operations preserve the length invariant
0 ≤ length ≤ size (the reading operations `peek` and `peekOrUndefined` do not
modify the state at all and are embedded as pure functions); `putOrReplace` on
a full buffer first removes and returns the oldest stored element — the head
of `toArray`, a present value — leaving the length equal to the size, and on a
non-full buffer returns undefined and increments the length by one. -/
theorem ringbuffer_ops_preserve_invariant (T : Type) (rb : RingBuffer T) (x : T)
    (h : rb.WF) :
    ((rb.putOrReplace x).2.length ≤ (rb.putOrReplace x).2.size) ∧
    (∀ rb2, rb.put x = Except.ok rb2 → rb2.length ≤ rb2.size) ∧
    (rb.removeOrUndefined.2.length ≤ rb.removeOrUndefined.2.size) ∧
    (∀ p, rb.remove = Except.ok p → p.2.length ≤ p.2.size) ∧
    (rb.clear.length ≤ rb.clear.size) ∧
    (rb.isFull →
      (rb.putOrReplace x).1 = rb.toArray.headD none ∧
      ((rb.putOrReplace x).1).isSome = true ∧
      (rb.putOrReplace x).2.length = rb.size ∧
      (rb.putOrReplace x).2.size = rb.size) ∧
    (¬ rb.isFull →
      (rb.putOrReplace x).1 = none ∧
      (rb.putOrReplace x).2.length = rb.length + 1) := by
  obtain ⟨hpos, hlen, hread, hbuf, hwin⟩ := h
  have hclear : rb.clear.length ≤ rb.clear.size := by
    show 0 ≤ rb.size
    omega
  have hremove : rb.removeOrUndefined.2.length ≤ rb.removeOrUndefined.2.size := by
    by_cases h0 : rb.length = 0
    · rw [RingBuffer.removeOrUndefined, if_pos h0]
      exact hlen
    · rw [RingBuffer.removeOrUndefined_pos rb h0]
      show rb.length - 1 ≤ rb.size
      omega
  have hremoveExc : ∀ p, rb.remove = Except.ok p → p.2.length ≤ p.2.size := by
    intro p hp
    by_cases h0 : rb.length = 0
    · rw [RingBuffer.remove, if_pos h0] at hp
      exact absurd hp (by simp)
    · rw [RingBuffer.remove, if_neg h0, Except.ok.injEq] at hp
      rw [← hp]
      exact hremove
  by_cases hfull : rb.length = rb.size
  · have hne : rb.length ≠ 0 := by omega
    have hstep := RingBuffer.putOrReplace_full rb x hfull hne
    have hsome : (rb.buffer.getD rb.read none).isSome = true := by
      have := hwin 0 (by omega)
      rwa [Nat.add_zero, Nat.mod_eq_of_lt hread] at this
    refine ⟨?_, ?_, hremove, hremoveExc, hclear, ?_, fun hc => absurd hfull hc⟩
    · rw [hstep]
      show rb.length - 1 + 1 ≤ rb.size
      omega
    · intro rb2 h2
      rw [RingBuffer.put, if_pos hfull] at h2
      exact absurd h2 (by simp)
    · intro _
      rw [hstep]
      refine ⟨?_, hsome, ?_, rfl⟩
      · rw [RingBuffer.toArray_headD rb (by omega) hread hbuf]
      · show rb.length - 1 + 1 = rb.size
        omega
  · have hstep := RingBuffer.putOrReplace_notFull rb x hfull
    refine ⟨?_, ?_, hremove, hremoveExc, hclear, fun hc => absurd hc hfull, ?_⟩
    · rw [hstep]
      show rb.length + 1 ≤ rb.size
      omega
    · intro rb2 h2
      rw [RingBuffer.put, if_neg hfull, Except.ok.injEq] at h2
      rw [← h2, hstep]
      show rb.length + 1 ≤ rb.size
      omega
    · intro _
      rw [hstep]
      exact ⟨rfl, rfl⟩

/-- Witness for C9: a full two-element buffer of naturals — `putOrReplace`
returns the oldest element (the head of `toArray`) and keeps the length at the
size. -/
theorem ringbuffer_ops_witness :
    (RingBuffer.mk [some 1, some 2] 2 2 0 0 : RingBuffer Nat).WF ∧
    ((RingBuffer.mk [some 1, some 2] 2 2 0 0 : RingBuffer Nat).putOrReplace 7).1 =
      (RingBuffer.mk [some 1, some 2] 2 2 0 0 : RingBuffer Nat).toArray.headD none ∧
    ((RingBuffer.mk [some 1, some 2] 2 2 0 0 : RingBuffer Nat).putOrReplace 7).1 = some 1 ∧
    ((RingBuffer.mk [some 1, some 2] 2 2 0 0 : RingBuffer Nat).putOrReplace 7).2.length = 2 := by
  have hwf : (RingBuffer.mk [some 1, some 2] 2 2 0 0 : RingBuffer Nat).WF := by
    refine ⟨by decide, by decide, by decide, by decide, ?_⟩
    decide
  have hmain := ringbuffer_ops_preserve_invariant Nat
    (RingBuffer.mk [some 1, some 2] 2 2 0 0) 7 hwf
  obtain ⟨hhead, -, hlen2, -⟩ := hmain.2.2.2.2.2.1 rfl
  exact ⟨hwf, hhead, by decide, hlen2⟩

/-- C10: the RingBuffer constructor fails exactly when the requested size is
non-positive or the initial value list has more than size elements; otherwise
the constructed buffer has length equal to the number of initial values, the
requested size, and `toArray` returns the initial values in their original
order. -/
theorem ringbuffer_create_spec (T : Type) (size : Int) (values : List T) :
    ((size ≤ 0 ∨ size < (values.length : Int)) →
      ∃ msg, RingBuffer.create T size values = Except.error msg) ∧
    (0 < size → (values.length : Int) ≤ size →
      ∃ rb, RingBuffer.create T size values = Except.ok rb ∧
        rb.length = values.length ∧ (rb.size : Int) = size ∧
        rb.toArray = values.map some) := by
  constructor
  · intro hbad
    rw [RingBuffer.create]
    by_cases h0 : size ≤ 0
    · rw [if_pos h0]
      exact ⟨_, rfl⟩
    · rw [if_neg h0, if_pos (by omega)]
      exact ⟨_, rfl⟩
  · intro hpos hfit
    rw [RingBuffer.create, if_neg (by omega), if_neg (by omega)]
    refine ⟨_, rfl, rfl, by show (size.toNat : Int) = size; omega, ?_⟩
    rw [RingBuffer.toArray]
    have hvals : values.length ≤ size.toNat := by omega
    rw [if_pos (by simpa using hvals)]
    rw [List.drop_zero, List.take_left' (by simp)]

/-- Witness for C10: size 0 is rejected; a buffer of size 3 prepopulated with
two values has length 2, size 3 and round-trips the values through
`toArray`. -/
theorem ringbuffer_create_witness :
    ((0 : Int) ≤ 0 ∨ (0 : Int) < (([] : List Nat).length : Int)) ∧
    (∃ msg, RingBuffer.create Nat 0 [] = Except.error msg) ∧
    (0 : Int) < 3 ∧ (([1, 2] : List Nat).length : Int) ≤ 3 ∧
    (∃ rb, RingBuffer.create Nat 3 [1, 2] = Except.ok rb ∧
      rb.length = 2 ∧ (rb.size : Int) = 3 ∧ rb.toArray = [some 1, some 2]) := by
  refine ⟨Or.inl le_rfl, (ringbuffer_create_spec Nat 0 []).1 (Or.inl le_rfl),
    by decide, by decide, ?_⟩
  obtain ⟨rb, hok, hlen, hsize, harr⟩ :=
    (ringbuffer_create_spec Nat 3 [1, 2]).2 (by decide) (by decide)
  exact ⟨rb, hok, hlen, hsize, harr⟩
